import Mathlib

/-!
Verification of the streaming chat response consumer.

Shallow embedding of `src/services/chatService.js` (`sendChatMessageStream`)
and of the message-accumulation callbacks plus `handleNewChat` in
`src/pages/ChatPage.jsx`.

JavaScript strings are modelled as `List Char` (`JStr`) so every operation
reduces in the kernel.  The JavaScript primitives used by the source —
`String.prototype.startsWith`, `String.prototype.slice(n)`,
`String.prototype.split('\n')` and `data.replace(/\\n/g, '\n')` — are
modelled by structural recursion with the same semantics.  `JSON.parse`
of a citation payload is an external platform facility, so the decoder is
parametric over a partial parse function `JStr → Option (List C)`;
`C` is the (opaque) type of one parsed citation record.
-/

/-- JavaScript strings, as lists of characters. -/
abbrev JStr := List Char

/-- A string literal, as a `JStr`. -/
def lit (s : String) : JStr := s.toList

/-- JavaScript `s.startsWith(p)` (first argument is the pattern `p`). -/
def jsStartsWith : JStr → JStr → Bool
  | [], _ => true
  | _ :: _, [] => false
  | p :: ps, c :: cs => p == c && jsStartsWith ps cs

/-- JavaScript `s.slice(n)` for a non-negative index. -/
def jsSlice (n : Nat) (s : JStr) : JStr := s.drop n

/-- JavaScript `s.split('\n')`: `"" ↦ [""]`, `"a\n" ↦ ["a", ""]`. -/
def jsSplitNl : JStr → List JStr
  | [] => [[]]
  | c :: rest =>
    if c = '\n' then [] :: jsSplitNl rest
    else
      match jsSplitNl rest with
      | [] => [[c]]
      | l :: ls => (c :: l) :: ls

/-- JavaScript `data.replace(/\\n/g, '\n')`: each occurrence of the
two-character sequence backslash–`n` becomes a literal line break,
scanning left to right without overlap. -/
def decodeEscapes : JStr → JStr
  | [] => []
  | '\\' :: 'n' :: rest => '\n' :: decodeEscapes rest
  | c :: rest => c :: decodeEscapes rest

/-- One callback invocation performed by `sendChatMessageStream`:
`onChunk(decodedData, fullText)`, `onDone(fullText, citations, convId)`
or `onError(err)` (the event records `err.message`). -/
inductive Event (C : Type) where
  | chunkEv (delta : JStr) (fullText : JStr)
  | doneEv (fullText : JStr) (citations : List C) (convId : Option JStr)
  | errorEv (msg : JStr)
  deriving DecidableEq, Repr

/-- The local mutable state of the read loop in `sendChatMessageStream`:
`let fullText = ''`, `let citations = []`, `let convId = null`. -/
structure DecState (C : Type) where
  fullText : JStr
  citations : List C
  convId : Option JStr
  deriving DecidableEq, Repr

/-- Initial loop state of `sendChatMessageStream`. -/
def initDecState {C : Type} : DecState C :=
  { fullText := [], citations := [], convId := none }

/-- The body of `sendChatMessageStream`'s classification of one payload
`data` (the text after the `data: ` framing): returns the updated loop
state, the callbacks invoked, and whether the function returned
(a terminal sentinel was seen).  Faithful to the source:
`data === '[DONE]'`, `data.startsWith('[ERROR]')` with `data.slice(8)`,
`data.startsWith('[CITATIONS]')` with `data.slice(11)` parsed inside a
try/catch that logs and continues, `data.startsWith('[CONV_ID]')` with
`data.slice(9)`, and otherwise a text delta whose escaped newlines are
decoded before accumulation. -/
def stepData {C : Type} (parse : JStr → Option (List C)) (s : DecState C)
    (data : JStr) : DecState C × List (Event C) × Bool :=
  if data = lit "[DONE]" then
    (s, [Event.doneEv s.fullText s.citations s.convId], true)
  else if jsStartsWith (lit "[ERROR]") data then
    (s, [Event.errorEv (jsSlice 8 data)], true)
  else if jsStartsWith (lit "[CITATIONS]") data then
    match parse (jsSlice 11 data) with
    | some cs => ({ s with citations := cs }, [], false)
    | none => (s, [], false)
  else if jsStartsWith (lit "[CONV_ID]") data then
    ({ s with convId := some (jsSlice 9 data) }, [], false)
  else
    let d := decodeEscapes data
    ({ s with fullText := s.fullText ++ d },
     [Event.chunkEv d (s.fullText ++ d)], false)

/-- The `for (const line of lines)` loop of `sendChatMessageStream`:
only lines starting with `data: ` are processed; a terminal sentinel
returns out of the whole function, skipping the remaining lines. -/
def procLines {C : Type} (parse : JStr → Option (List C)) (s : DecState C) :
    List JStr → DecState C × List (Event C) × Bool
  | [] => (s, [], false)
  | line :: rest =>
    if jsStartsWith (lit "data: ") line then
      match stepData parse s (jsSlice 6 line) with
      | (s1, evs, true) => (s1, evs, true)
      | (s1, evs, false) =>
        match procLines parse s1 rest with
        | (s2, evs2, t) => (s2, evs ++ evs2, t)
    else procLines parse s rest

/-- How the byte stream ends after its chunks: the reader reports `done`
(`closed`) or a read rejects with a transport failure carrying a message
(`failed`). -/
inductive EndKind where
  | closed
  | failed (msg : JStr)
  deriving DecidableEq, Repr

/-- The `while (true)` read loop of `sendChatMessageStream`: each chunk is
split on `'\n'` (no carry-over of a partial trailing line), its lines are
processed, and a terminal sentinel returns immediately.  When the reader
reports `done`, the trailing `onDone?.(fullText, citations, convId)` runs;
when a read throws, the surrounding catch invokes `onError?.(error)`. -/
def procChunks {C : Type} (parse : JStr → Option (List C)) (s : DecState C) :
    List JStr → EndKind → List (Event C)
  | [], EndKind.closed => [Event.doneEv s.fullText s.citations s.convId]
  | [], EndKind.failed m => [Event.errorEv m]
  | c :: rest, ek =>
    match procLines parse s (jsSplitNl c) with
    | (_, evs, true) => evs
    | (s1, evs, false) => evs ++ procChunks parse s1 rest ek

/-- Outcome of the initial `fetch` in `sendChatMessageStream`: either a
non-OK response (with the optional `errorData.detail` and the rendered
status text), or an OK response whose body yields a list of decoded
chunks followed by an `EndKind`. -/
inductive FetchOutcome (C : Type) where
  | httpError (detail : Option JStr) (statusText : JStr)
  | ok (chunks : List JStr) (ek : EndKind)

/-- JavaScript `v || d` for a string-or-missing value: `null`, `undefined`
and the empty string are falsy. -/
def jsOrDefault (v : Option JStr) (d : JStr) : JStr :=
  match v with
  | some s => if s = [] then d else s
  | none => d

/-- `sendChatMessageStream` after the access token is obtained, as the
sequence of callback invocations it performs.  A non-OK response throws
`new Error(errorData.detail || 'API error: ...')` inside the try block,
which the catch turns into a single `onError`; otherwise the read loop
runs over the body's chunks. -/
def sendChatMessageStream {C : Type} (parse : JStr → Option (List C)) :
    FetchOutcome C → List (Event C)
  | FetchOutcome.httpError detail statusText =>
    [Event.errorEv (jsOrDefault detail (lit "API error: " ++ statusText))]
  | FetchOutcome.ok chunks ek => procChunks parse initDecState chunks ek

/-- Frame-level run: process a list of already-framed payloads (the text
after `data: `) with `stepData`, stopping at the first terminal sentinel,
exactly as the read loop does.  `procLines_framed` below shows this equals
`procLines` on the corresponding `data: `-framed lines. -/
def procDatas {C : Type} (parse : JStr → Option (List C)) (s : DecState C) :
    List JStr → DecState C × List (Event C) × Bool
  | [] => (s, [], false)
  | d :: rest =>
    match stepData parse s d with
    | (s1, evs, true) => (s1, evs, true)
    | (s1, evs, false) =>
      match procDatas parse s1 rest with
      | (s2, evs2, t) => (s2, evs ++ evs2, t)

/-- Message role. -/
inductive Role where
  | user
  | assistant
  deriving DecidableEq, Repr

/-- A message of the `messages` state array in `ChatPage.jsx`.  Fields the
source sometimes omits are modelled by their JavaScript-falsy defaults:
`id := none`, `isStreaming := false`, `isError := false`,
`citations := []`. -/
structure Msg (C : Type) where
  id : Option Nat
  role : Role
  content : JStr
  isStreaming : Bool
  isError : Bool
  citations : List C
  deriving DecidableEq, Repr

/-- The greeting text of the initial (and post-reset) assistant message. -/
def welcomeText : JStr :=
  lit "Hello! I can help you search through academic research papers. Ask me anything about recent studies, specific methodologies, or key findings in your field."

/-- The greeting message installed by the initial state and by
`handleNewChat`. -/
def welcomeMsg {C : Type} : Msg C :=
  { id := none, role := Role.assistant, content := welcomeText,
    isStreaming := false, isError := false, citations := [] }

/-- The `ChatPage` state touched by the streaming callbacks:
`messages`, `error`, `conversationId`, `loading`. -/
structure PageState (C : Type) where
  messages : List (Msg C)
  error : Option JStr
  conversationId : Option JStr
  loading : Bool
  deriving DecidableEq, Repr

/-- The `prev.map((msg) => msg.id === streamingMessageId ? {...} : msg)`
update pattern used by all three callbacks. -/
def updMsgs {C : Type} (sid : Nat) (f : Msg C → Msg C) (ms : List (Msg C)) :
    List (Msg C) :=
  ms.map fun m => if m.id = some sid then f m else m

/-- JavaScript truthiness of a string-or-null value. -/
def strTruthy : Option JStr → Bool
  | none => false
  | some [] => false
  | some (_ :: _) => true

/-- The `onChunk` callback of `handleSend`: set the streaming placeholder's
content to the accumulated full text. -/
def onChunkCb {C : Type} (sid : Nat) (fullText : JStr) (ps : PageState C) :
    PageState C :=
  { ps with messages := updMsgs sid (fun m => { m with content := fullText }) ps.messages }

/-- The `onDone` callback of `handleSend`: `if (convId && !conversationId)`
— where `conversationId` is the value captured by the closure at send
time — assign the conversation id; then seal the placeholder with the
final content and citations and clear `loading`. -/
def onDoneCb {C : Type} (sid : Nat) (capturedConvId : Option JStr) (fullText : JStr)
    (cits : List C) (convId : Option JStr) (ps : PageState C) : PageState C :=
  let ps1 :=
    if strTruthy convId && !strTruthy capturedConvId then
      { ps with conversationId := convId }
    else ps
  let ps2 := { ps1 with
    messages := updMsgs sid
      (fun m => { m with content := fullText, citations := cits, isStreaming := false })
      ps1.messages }
  { ps2 with loading := false }

/-- The fallback text of `err.message || '...'` in `onError`. -/
def errAdvice : JStr := lit "Failed to get response. Please try again."

/-- The `onError` callback of `handleSend`: set the page error to
`err.message || 'Failed to get response. Please try again.'`, replace the
placeholder's content with the fixed apology template (interpolating
`err.message`), mark it `isError`, stop streaming, clear `loading`. -/
def onErrorCb {C : Type} (sid : Nat) (emsg : JStr) (ps : PageState C) :
    PageState C :=
  let ps1 := { ps with error := some (jsOrDefault (some emsg) errAdvice) }
  let ps2 := { ps1 with
    messages := updMsgs sid
      (fun m => { m with
        content := lit "Sorry, I encountered an error: " ++ emsg ++ lit ". Please try again.",
        isError := true, isStreaming := false })
      ps1.messages }
  { ps2 with loading := false }

/-- Dispatch one decoder callback invocation to the `ChatPage` state. -/
def applyEvent {C : Type} (sid : Nat) (capturedConvId : Option JStr)
    (ps : PageState C) : Event C → PageState C
  | Event.chunkEv _ fullText => onChunkCb sid fullText ps
  | Event.doneEv ft cs cid => onDoneCb sid capturedConvId ft cs cid ps
  | Event.errorEv m => onErrorCb sid m ps

/-- Apply a sequence of decoder callback invocations in order. -/
def runPage {C : Type} (sid : Nat) (capturedConvId : Option JStr)
    (ps : PageState C) (evs : List (Event C)) : PageState C :=
  evs.foldl (applyEvent sid capturedConvId) ps

/-- `handleNewChat`: replace the messages with the greeting, clear the
conversation id and the error.  It does not touch `loading` and installs
no guard against callbacks of a still-in-flight stream. -/
def handleNewChat {C : Type} (ps : PageState C) : PageState C :=
  { messages := [welcomeMsg], conversationId := none, error := none,
    loading := ps.loading }

/-- The user message appended synchronously by `handleSend`. -/
def userMsg {C : Type} (q : JStr) : Msg C :=
  { id := none, role := Role.user, content := q, isStreaming := false,
    isError := false, citations := [] }

/-- The streaming placeholder appended by `handleSend`, keyed by
`streamingMessageId`. -/
def placeholderMsg {C : Type} (sid : Nat) : Msg C :=
  { id := some sid, role := Role.assistant, content := [], isStreaming := true,
    isError := false, citations := [] }

/-- The synchronous part of `handleSend` before the stream is consumed:
append the user message and the streaming placeholder, set `loading`,
clear the error. -/
def handleSendStart {C : Type} (sid : Nat) (q : JStr) (ps : PageState C) :
    PageState C :=
  { ps with
    messages := (ps.messages ++ [userMsg q]) ++ [placeholderMsg sid],
    loading := true,
    error := none }

/-- `handleSend` end to end: run `handleSendStart`, then feed every
callback invocation of `sendChatMessageStream` (with the conversation id
captured at send time) into the page state. -/
def handleSendStream {C : Type} (parse : JStr → Option (List C)) (sid : Nat)
    (q : JStr) (fo : FetchOutcome C) (ps : PageState C) : PageState C :=
  runPage sid ps.conversationId (handleSendStart sid q ps)
    (sendChatMessageStream parse fo)

/-- Look up the message keyed by `sid`. -/
def findMsg {C : Type} (sid : Nat) (ps : PageState C) : Option (Msg C) :=
  ps.messages.find? fun m => decide (m.id = some sid)

/-- The initial `ChatPage` state: the greeting message, no error, no
conversation id, not loading. -/
def psInit {C : Type} : PageState C :=
  { messages := [welcomeMsg], error := none, conversationId := none, loading := false }

/-- A concrete mid-stream `ChatPage` state: a user message was sent and
the streaming placeholder (id 7) is in flight. -/
def psMidStream {C : Type} : PageState C :=
  { messages := [welcomeMsg, userMsg (lit "q"), placeholderMsg 7],
    error := none, conversationId := none, loading := true }

/-- Is an event a terminal notification (`onDone` or `onError`)? -/
def isTerminalEv {C : Type} : Event C → Bool
  | Event.chunkEv _ _ => false
  | Event.doneEv _ _ _ => true
  | Event.errorEv _ => true

/-- Is an event an `onChunk` invocation? -/
def isChunkEv {C : Type} : Event C → Bool
  | Event.chunkEv _ _ => true
  | Event.doneEv _ _ _ => false
  | Event.errorEv _ => false

/-- Does a payload classify as a text delta (no sentinel applies)? -/
def isDeltaData (d : JStr) : Bool :=
  !(decide (d = lit "[DONE]")) && !(jsStartsWith (lit "[ERROR]") d) &&
  !(jsStartsWith (lit "[CITATIONS]") d) && !(jsStartsWith (lit "[CONV_ID]") d)

/-- The update each callback applies to the message keyed by the stream's
placeholder id (`evUpd e` is the function passed to the `prev.map`
pattern for the event `e`). -/
def evUpd {C : Type} : Event C → Msg C → Msg C
  | Event.chunkEv _ ft, m => { m with content := ft }
  | Event.doneEv ft cs _, m =>
    { m with content := ft, citations := cs, isStreaming := false }
  | Event.errorEv emsg, m =>
    { m with
      content := lit "Sorry, I encountered an error: " ++ emsg ++ lit ". Please try again.",
      isError := true, isStreaming := false }

/-- Does the read loop hit a terminal sentinel somewhere in the given
chunks (so that it returns before the reads are exhausted)? -/
def chunksTerminate {C : Type} (parse : JStr → Option (List C)) (s : DecState C) :
    List JStr → Bool
  | [] => false
  | c :: rest =>
    match procLines parse s (jsSplitNl c) with
    | (_, _, true) => true
    | (s1, _, false) => chunksTerminate parse s1 rest

/-- A concrete citation-payload parser used in witnesses: recognises the
two payloads `[1]` and `[2]`. -/
def parseW : JStr → Option (List Nat) :=
  fun s => if s = lit "[1]" then some [1] else if s = lit "[2]" then some [2] else none

theorem jsStartsWith_self_append (p t : JStr) : jsStartsWith p (p ++ t) = true := by
  induction p with
  | nil => rfl
  | cons c cs ih => simp [jsStartsWith, ih]

theorem jsStartsWith_dest {p s : JStr} (h : jsStartsWith p s = true) :
    ∃ t, s = p ++ t := by
  induction p generalizing s with
  | nil => exact ⟨s, rfl⟩
  | cons c cs ih =>
    cases s with
    | nil => simp [jsStartsWith] at h
    | cons b bs =>
      simp only [jsStartsWith, Bool.and_eq_true, beq_iff_eq] at h
      obtain ⟨rfl, h2⟩ := h
      obtain ⟨t, rfl⟩ := ih h2
      exact ⟨t, rfl⟩

theorem append_ne_of_length_lt {α : Type} {p q : List α} (t : List α)
    (h : q.length < p.length) : p ++ t ≠ q := by
  intro he
  have hl := congrArg List.length he
  rw [List.length_append] at hl
  omega

theorem errSent_not_done {d : JStr} (h : jsStartsWith (lit "[ERROR]") d = true) :
    d ≠ lit "[DONE]" := by
  obtain ⟨t, rfl⟩ := jsStartsWith_dest h
  exact append_ne_of_length_lt t (by decide)

theorem citSent_not_done {d : JStr} (h : jsStartsWith (lit "[CITATIONS]") d = true) :
    d ≠ lit "[DONE]" := by
  obtain ⟨t, rfl⟩ := jsStartsWith_dest h
  exact append_ne_of_length_lt t (by decide)

theorem citSent_not_err {d : JStr} (h : jsStartsWith (lit "[CITATIONS]") d = true) :
    jsStartsWith (lit "[ERROR]") d = false := by
  obtain ⟨t, rfl⟩ := jsStartsWith_dest h
  rfl

theorem convSent_not_done {d : JStr} (h : jsStartsWith (lit "[CONV_ID]") d = true) :
    d ≠ lit "[DONE]" := by
  obtain ⟨t, rfl⟩ := jsStartsWith_dest h
  exact append_ne_of_length_lt t (by decide)

theorem convSent_not_err {d : JStr} (h : jsStartsWith (lit "[CONV_ID]") d = true) :
    jsStartsWith (lit "[ERROR]") d = false := by
  obtain ⟨t, rfl⟩ := jsStartsWith_dest h
  rfl

theorem convSent_not_cit {d : JStr} (h : jsStartsWith (lit "[CONV_ID]") d = true) :
    jsStartsWith (lit "[CITATIONS]") d = false := by
  obtain ⟨t, rfl⟩ := jsStartsWith_dest h
  rfl

/-- `stepData` on a `[DONE]` payload: one `onDone`, then return. -/
theorem stepData_done {C : Type} (parse : JStr → Option (List C)) (s : DecState C) :
    stepData parse s (lit "[DONE]") =
      (s, [Event.doneEv s.fullText s.citations s.convId], true) := by
  simp [stepData]

/-- `stepData` on an `[ERROR]`-prefixed payload: one `onError` carrying
`data.slice(8)`, then return. -/
theorem stepData_err {C : Type} (parse : JStr → Option (List C)) (s : DecState C)
    {d : JStr} (h : jsStartsWith (lit "[ERROR]") d = true) :
    stepData parse s d = (s, [Event.errorEv (jsSlice 8 d)], true) := by
  rw [stepData, if_neg (errSent_not_done h), if_pos h]

/-- `stepData` on a `[CITATIONS]` payload whose remainder parses:
the parsed batch replaces the buffered one, nothing is emitted. -/
theorem stepData_citSome {C : Type} (parse : JStr → Option (List C)) (s : DecState C)
    {d : JStr} {cs : List C} (h : jsStartsWith (lit "[CITATIONS]") d = true)
    (hp : parse (jsSlice 11 d) = some cs) :
    stepData parse s d = ({ s with citations := cs }, [], false) := by
  rw [stepData, if_neg (citSent_not_done h), if_neg (by simp [citSent_not_err h]),
    if_pos h, hp]

/-- `stepData` on a `[CITATIONS]` payload whose remainder fails to parse:
nothing is emitted, the state is untouched, processing continues. -/
theorem stepData_citNone {C : Type} (parse : JStr → Option (List C)) (s : DecState C)
    {d : JStr} (h : jsStartsWith (lit "[CITATIONS]") d = true)
    (hp : parse (jsSlice 11 d) = none) :
    stepData parse s d = (s, [], false) := by
  rw [stepData, if_neg (citSent_not_done h), if_neg (by simp [citSent_not_err h]),
    if_pos h, hp]

/-- `stepData` on a `[CONV_ID]` payload: the pending identifier is
overwritten unconditionally with `data.slice(9)`. -/
theorem stepData_conv {C : Type} (parse : JStr → Option (List C)) (s : DecState C)
    {d : JStr} (h : jsStartsWith (lit "[CONV_ID]") d = true) :
    stepData parse s d = ({ s with convId := some (jsSlice 9 d) }, [], false) := by
  rw [stepData, if_neg (convSent_not_done h), if_neg (by simp [convSent_not_err h]),
    if_neg (by simp [convSent_not_cit h]), if_pos h]

/-- `stepData` on a text delta: decode escapes, accumulate, one `onChunk`. -/
theorem stepData_delta {C : Type} (parse : JStr → Option (List C)) (s : DecState C)
    {d : JStr} (h : isDeltaData d = true) :
    stepData parse s d =
      ({ s with fullText := s.fullText ++ decodeEscapes d },
       [Event.chunkEv (decodeEscapes d) (s.fullText ++ decodeEscapes d)], false) := by
  simp only [isDeltaData, Bool.and_eq_true, Bool.not_eq_true', decide_eq_false_iff_not] at h
  obtain ⟨⟨⟨h1, h2⟩, h3⟩, h4⟩ := h
  rw [stepData, if_neg h1, if_neg (by simp [h2]), if_neg (by simp [h3]),
    if_neg (by simp [h4])]

/-- Frame-level processing of a concatenation, when the first part hit a
terminal sentinel: the rest is never read. -/
theorem procDatas_append_stop {C : Type} (parse : JStr → Option (List C)) :
    ∀ (xs ys : List JStr) (s s1 : DecState C) (evs : List (Event C)),
      procDatas parse s xs = (s1, evs, true) →
      procDatas parse s (xs ++ ys) = (s1, evs, true)
  | [], ys, s, s1, evs, h => by simp [procDatas] at h
  | d :: xs, ys, s, s1, evs, h => by
    rcases hd : stepData parse s d with ⟨sd, evsd, bd⟩
    cases bd with
    | true =>
      simp only [procDatas, hd] at h ⊢
      exact h
    | false =>
      rcases hx : procDatas parse sd xs with ⟨sx, evsx, bx⟩
      simp only [procDatas, hd, hx] at h
      cases bx with
      | true =>
        obtain ⟨rfl, rfl, -⟩ := h
        simp only [List.cons_append, procDatas, hd, List.append_eq]
        rw [procDatas_append_stop parse xs ys sd _ _ hx]
      | false => simp at h

/-- Frame-level processing of a concatenation, when the first part did
not hit a terminal sentinel: processing continues into the second part. -/
theorem procDatas_append_go {C : Type} (parse : JStr → Option (List C)) :
    ∀ (xs ys : List JStr) (s s1 s2 : DecState C) (evs evs2 : List (Event C)) (t : Bool),
      procDatas parse s xs = (s1, evs, false) →
      procDatas parse s1 ys = (s2, evs2, t) →
      procDatas parse s (xs ++ ys) = (s2, evs ++ evs2, t)
  | [], ys, s, s1, s2, evs, evs2, t, h, h2 => by
    simp only [procDatas] at h
    obtain ⟨rfl, rfl, -⟩ := h
    simpa using h2
  | d :: xs, ys, s, s1, s2, evs, evs2, t, h, h2 => by
    rcases hd : stepData parse s d with ⟨sd, evsd, bd⟩
    cases bd with
    | true => simp [procDatas, hd] at h
    | false =>
      rcases hx : procDatas parse sd xs with ⟨sx, evsx, bx⟩
      simp only [procDatas, hd, hx] at h
      cases bx with
      | true => simp at h
      | false =>
        obtain ⟨rfl, rfl, -⟩ := h
        simp only [List.cons_append, procDatas, hd, List.append_eq]
        rw [procDatas_append_go parse xs ys sd _ _ _ _ _ hx h2, List.append_assoc]

/-- The read loop on `data: `-framed lines is exactly frame-level
processing of the payloads. -/
theorem procLines_framed {C : Type} (parse : JStr → Option (List C)) :
    ∀ (datas : List JStr) (s : DecState C),
      procLines parse s (datas.map (fun d => lit "data: " ++ d)) =
        procDatas parse s datas
  | [], s => rfl
  | d :: datas, s => by
    have hpre : jsStartsWith (lit "data: ") (lit "data: " ++ d) = true :=
      jsStartsWith_self_append _ _
    have hsl : jsSlice 6 (lit "data: " ++ d) = d := rfl
    rcases hd : stepData parse s d with ⟨s1, evs, b⟩
    cases b with
    | true => simp [procLines, procDatas, hpre, hsl, hd]
    | false =>
      have ih := procLines_framed parse datas s1
      rcases hr : procDatas parse s1 datas with ⟨s2, evs2, t⟩
      simp [procLines, procDatas, hpre, hsl, hd, ih, hr]

/-- A single processed payload emits at most one event; a terminal step
emits exactly its terminal event, a non-terminal step emits no terminal
event. -/
theorem stepData_events {C : Type} (parse : JStr → Option (List C))
    (s : DecState C) (d : JStr) :
    (∀ s1 evs, stepData parse s d = (s1, evs, true) →
      ∃ e, evs = [e] ∧ isTerminalEv e = true) ∧
    (∀ s1 evs, stepData parse s d = (s1, evs, false) →
      evs.all (fun e => !isTerminalEv e) = true) := by
  by_cases h1 : d = lit "[DONE]"
  · subst h1
    rw [stepData_done]
    constructor
    · intro s1 evs he
      cases he
      exact ⟨_, rfl, rfl⟩
    · intro s1 evs he
      simp at he
  · by_cases h2 : jsStartsWith (lit "[ERROR]") d = true
    · rw [stepData_err parse s h2]
      constructor
      · intro s1 evs he
        cases he
        exact ⟨_, rfl, rfl⟩
      · intro s1 evs he
        simp at he
    · by_cases h3 : jsStartsWith (lit "[CITATIONS]") d = true
      · rcases hp : parse (jsSlice 11 d) with _ | cs
        · rw [stepData_citNone parse s h3 hp]
          constructor
          · intro s1 evs he
            simp at he
          · intro s1 evs he
            cases he
            rfl
        · rw [stepData_citSome parse s h3 hp]
          constructor
          · intro s1 evs he
            simp at he
          · intro s1 evs he
            cases he
            rfl
      · by_cases h4 : jsStartsWith (lit "[CONV_ID]") d = true
        · rw [stepData_conv parse s h4]
          constructor
          · intro s1 evs he
            simp at he
          · intro s1 evs he
            cases he
            rfl
        · have hd : isDeltaData d = true := by
            simp [isDeltaData, h1, h2, h3, h4]
          rw [stepData_delta parse s hd]
          constructor
          · intro s1 evs he
            simp at he
          · intro s1 evs he
            cases he
            rfl

/-- Structure of the events of the line loop: if it returned, the events
end in exactly one terminal; otherwise no terminal was emitted. -/
theorem procLines_events {C : Type} (parse : JStr → Option (List C)) :
    ∀ (lines : List JStr) (s : DecState C),
      (∀ s1 evs, procLines parse s lines = (s1, evs, true) →
        ∃ evs' e, evs = evs' ++ [e] ∧ isTerminalEv e = true ∧
          evs'.all (fun x => !isTerminalEv x) = true) ∧
      (∀ s1 evs, procLines parse s lines = (s1, evs, false) →
        evs.all (fun x => !isTerminalEv x) = true)
  | [], s => by
    constructor
    · intro s1 evs he
      simp [procLines] at he
    · intro s1 evs he
      simp [procLines] at he
      simp [he]
  | line :: rest, s => by
    by_cases hpre : jsStartsWith (lit "data: ") line = true
    · rcases hd : stepData parse s (jsSlice 6 line) with ⟨sd, evsd, bd⟩
      cases bd with
      | true =>
        obtain ⟨e, rfl, hterm⟩ := (stepData_events parse s (jsSlice 6 line)).1 _ _ hd
        constructor
        · intro s1 evs he
          rw [procLines, if_pos hpre, hd] at he
          cases he
          exact ⟨[], e, rfl, hterm, rfl⟩
        · intro s1 evs he
          rw [procLines, if_pos hpre, hd] at he
          simp at he
      | false =>
        have hnt := (stepData_events parse s (jsSlice 6 line)).2 _ _ hd
        have ih := procLines_events parse rest sd
        rcases hr : procLines parse sd rest with ⟨s2, evs2, t⟩
        constructor
        · intro s1 evs he
          rw [procLines, if_pos hpre, hd] at he
          simp only [] at he
          rw [hr] at he
          simp only [] at he
          cases t with
          | true =>
            cases he
            obtain ⟨evs', e, rfl, hterm, hnt'⟩ := ih.1 _ _ hr
            refine ⟨evsd ++ evs', e, by rw [List.append_assoc], hterm, ?_⟩
            simp only [List.all_append, Bool.and_eq_true]
            exact ⟨hnt, hnt'⟩
          | false => simp at he
        · intro s1 evs he
          rw [procLines, if_pos hpre, hd] at he
          simp only [] at he
          rw [hr] at he
          simp only [] at he
          cases t with
          | true => simp at he
          | false =>
            cases he
            have hnt' := ih.2 _ _ hr
            simp only [List.all_append, Bool.and_eq_true]
            exact ⟨hnt, hnt'⟩
    · have hpre' : jsStartsWith (lit "data: ") line = false := by
        simp [hpre]
      have ih := procLines_events parse rest s
      constructor
      · intro s1 evs he
        rw [procLines, if_neg (by simp [hpre'])] at he
        exact ih.1 _ _ he
      · intro s1 evs he
        rw [procLines, if_neg (by simp [hpre'])] at he
        exact ih.2 _ _ he

/-- The read loop always ends in exactly one terminal notification. -/
theorem procChunks_terminal {C : Type} (parse : JStr → Option (List C)) :
    ∀ (chunks : List JStr) (s : DecState C) (ek : EndKind),
      ∃ evs' e, procChunks parse s chunks ek = evs' ++ [e] ∧
        isTerminalEv e = true ∧ evs'.all (fun x => !isTerminalEv x) = true
  | [], s, EndKind.closed => ⟨[], _, rfl, rfl, rfl⟩
  | [], s, EndKind.failed m => ⟨[], _, rfl, rfl, rfl⟩
  | c :: rest, s, ek => by
    rcases hl : procLines parse s (jsSplitNl c) with ⟨s1, evs, b⟩
    cases b with
    | true =>
      obtain ⟨evs', e, rfl, hterm, hnt⟩ := (procLines_events parse (jsSplitNl c) s).1 _ _ hl
      exact ⟨evs', e, by rw [procChunks, hl], hterm, hnt⟩
    | false =>
      have hnt := (procLines_events parse (jsSplitNl c) s).2 _ _ hl
      obtain ⟨evs', e, hre, hterm, hnt'⟩ := procChunks_terminal parse rest s1 ek
      refine ⟨evs ++ evs', e, ?_, hterm, ?_⟩
      · rw [procChunks, hl]
        simp only []
        rw [hre, List.append_assoc]
      · simp only [List.all_append, Bool.and_eq_true]
        exact ⟨hnt, hnt'⟩

/-- C3: the decoder keeps no cross-read line buffer — `chunk.split('\n')`
is applied to each read in isolation — so the same bytes framed as
`data: hello\n` yield different frames depending on where the read
boundary falls: delivered whole, one `TextDelta("hello")`; split as
`data: hel` / `lo\n`, a `TextDelta("hel")` and the tail `lo` is dropped. -/
theorem C3_rechunk_divergence :
    lit "data: hel" ++ lit "lo\n" = lit "data: hello\n" ∧
    procChunks (C := Nat) (fun _ => none) initDecState
        [lit "data: hello\n"] EndKind.closed =
      [Event.chunkEv (lit "hello") (lit "hello"),
       Event.doneEv (lit "hello") [] none] ∧
    procChunks (C := Nat) (fun _ => none) initDecState
        [lit "data: hel", lit "lo\n"] EndKind.closed =
      [Event.chunkEv (lit "hel") (lit "hel"),
       Event.doneEv (lit "hel") [] none] ∧
    procChunks (C := Nat) (fun _ => none) initDecState
        [lit "data: hello\n"] EndKind.closed ≠
      procChunks (C := Nat) (fun _ => none) initDecState
        [lit "data: hel", lit "lo\n"] EndKind.closed := by
  refine ⟨by decide, by decide, by decide, by decide⟩

/-- C7: for every byte stream — however it is chunked, whether it ends
with the reader reporting `done` or with a read raising a transport
failure — `sendChatMessageStream` delivers exactly one terminal
notification (`onDone` or `onError`), and it is the last callback
invocation: all earlier invocations are `onChunk`. -/
theorem C7_exactly_one_terminal {C : Type} (parse : JStr → Option (List C))
    (chunks : List JStr) (ek : EndKind) :
    ∃ evs' e, sendChatMessageStream parse (FetchOutcome.ok chunks ek) = evs' ++ [e] ∧
      isTerminalEv e = true ∧ evs'.all (fun x => !isTerminalEv x) = true :=
  procChunks_terminal parse chunks initDecState ek

/-- C8 counterexample: the payload `[ERROR]boom` is classified as an
error sentinel by `startsWith('[ERROR]')`, yet the emitted Error frame
carries `oom` (`data.slice(8)`), not the remainder `boom` after the
7-character sentinel, so the frame does not carry all characters
following the sentinel verbatim. -/
theorem C8_error_slice_counterexample :
    procChunks (C := Nat) (fun _ => none) initDecState
        [lit "data: [ERROR]boom\n"] EndKind.closed =
      [Event.errorEv (lit "oom")] ∧
    jsSlice (lit "[ERROR]").length (lit "[ERROR]boom") = lit "boom" ∧
    (lit "oom" : JStr) ≠ lit "boom" :=
  ⟨by decide, by decide, by decide⟩

/-- C8 (amended): the Error frame carries the payload minus its first
8 characters — the 7-character `[ERROR]` sentinel plus the one character
after it (the separating space in the backend's `[ERROR] message`
format) — so for a payload of the shape `[ERROR] msg` it carries exactly
`msg`. -/
theorem C8_error_slice {C : Type} (parse : JStr → Option (List C))
    (s : DecState C) (d : JStr) (h : jsStartsWith (lit "[ERROR]") d = true) :
    stepData parse s d = (s, [Event.errorEv (jsSlice 8 d)], true) ∧
    ∀ m : JStr, jsSlice 8 (lit "[ERROR] " ++ m) = m :=
  ⟨stepData_err parse s h, fun _ => rfl⟩

theorem C8_error_slice_witness :
    jsStartsWith (lit "[ERROR]") (lit "[ERROR] boom") = true ∧
    (stepData (C := Nat) (fun _ => none) initDecState (lit "[ERROR] boom") =
        (initDecState, [Event.errorEv (lit "boom")], true) ∧
      ∀ m : JStr, jsSlice 8 (lit "[ERROR] " ++ m) = m) :=
  ⟨by decide,
    C8_error_slice (fun _ => none) initDecState (lit "[ERROR] boom") (by decide)⟩

/-- Any single payload that is neither `[DONE]` nor `[ERROR]`-prefixed
continues the loop, emits no terminal event, and either installs a
parsed citation batch or leaves the buffered batch alone. -/
theorem stepData_nonterminal {C : Type} (parse : JStr → Option (List C))
    (s : DecState C) {d : JStr}
    (h1 : d ≠ lit "[DONE]") (h2 : jsStartsWith (lit "[ERROR]") d = false) :
    ∃ s' evs, stepData parse s d = (s', evs, false) ∧
      (evs.all fun e => !isTerminalEv e) = true ∧
      ((jsStartsWith (lit "[CITATIONS]") d = true ∧
          ∃ cs, parse (jsSlice 11 d) = some cs ∧ s'.citations = cs) ∨
        s'.citations = s.citations) := by
  by_cases h3 : jsStartsWith (lit "[CITATIONS]") d = true
  · rcases hp : parse (jsSlice 11 d) with _ | cs
    · exact ⟨s, [], stepData_citNone parse s h3 hp, rfl, Or.inr rfl⟩
    · exact ⟨{ s with citations := cs }, [], stepData_citSome parse s h3 hp, rfl,
        Or.inl ⟨h3, cs, rfl, rfl⟩⟩
  · by_cases h4 : jsStartsWith (lit "[CONV_ID]") d = true
    · exact ⟨_, [], stepData_conv parse s h4, rfl, Or.inr rfl⟩
    · have hd : isDeltaData d = true := by
        simp [isDeltaData, h1, h2, h3, h4]
      exact ⟨_, _, stepData_delta parse s hd, rfl, Or.inr rfl⟩

/-- A run of payloads none of which is terminal never returns, emits no
terminal event, and — when every citation payload in it fails to parse —
leaves the buffered citation batch unchanged. -/
theorem procDatas_nonterminal {C : Type} (parse : JStr → Option (List C)) :
    ∀ (datas : List JStr) (s : DecState C),
      (∀ d ∈ datas, d ≠ lit "[DONE]" ∧ jsStartsWith (lit "[ERROR]") d = false) →
      ∃ s' evs, procDatas parse s datas = (s', evs, false) ∧
        (evs.all fun e => !isTerminalEv e) = true ∧
        ((∀ d ∈ datas, jsStartsWith (lit "[CITATIONS]") d = true →
            parse (jsSlice 11 d) = none) → s'.citations = s.citations)
  | [], s, h => ⟨s, [], rfl, rfl, fun _ => rfl⟩
  | d :: datas, s, h => by
    obtain ⟨h1, h2⟩ := h d (List.mem_cons_self d datas)
    obtain ⟨s1, evs1, hstep, hnt1, hcit1⟩ := stepData_nonterminal parse s h1 h2
    obtain ⟨s2, evs2, hrun, hnt2, hcit2⟩ :=
      procDatas_nonterminal parse datas s1 (fun x hx => h x (List.mem_cons_of_mem d hx))
    refine ⟨s2, evs1 ++ evs2, ?_, ?_, ?_⟩
    · simp only [procDatas, hstep]
      rw [hrun]
    · simp [List.all_append, hnt1, hnt2]
    · intro hfail
      have hs1 : s1.citations = s.citations := by
        rcases hcit1 with ⟨hc, cs, hp, -⟩ | h'
        · rw [hfail d (List.mem_cons_self d datas) hc] at hp
          cases hp
        · exact h'
      rw [hcit2 (fun x hx => hfail x (List.mem_cons_of_mem d hx)), hs1]

/-- C6: a `[CITATIONS]` payload that fails to parse emits nothing and
does not abort — the loop continues with unchanged state — and a frame
sequence all of whose citation payloads fail to parse, ending in
`[DONE]`, still reaches Completion: a single `onDone` carrying an empty
citation list, not an Error. -/
theorem C6_citation_resilience {C : Type} (parse : JStr → Option (List C))
    (datas : List JStr)
    (hnt : ∀ d ∈ datas, d ≠ lit "[DONE]" ∧ jsStartsWith (lit "[ERROR]") d = false)
    (hfail : ∀ d ∈ datas, jsStartsWith (lit "[CITATIONS]") d = true →
      parse (jsSlice 11 d) = none) :
    (∀ (s : DecState C) (d : JStr), jsStartsWith (lit "[CITATIONS]") d = true →
      parse (jsSlice 11 d) = none → stepData parse s d = (s, [], false)) ∧
    ∃ evs ft cid, procDatas parse initDecState (datas ++ [lit "[DONE]"]) =
      ({ fullText := ft, citations := [], convId := cid },
        evs ++ [Event.doneEv ft [] cid], true) ∧
      (evs.all fun e => !isTerminalEv e) = true := by
  refine ⟨fun s d h hp => stepData_citNone parse s h hp, ?_⟩
  obtain ⟨s', evs, hrun, hnt', hcit⟩ := procDatas_nonterminal parse datas initDecState hnt
  obtain ⟨ft, cs, cid⟩ := s'
  have hc : cs = [] := by simpa using hcit hfail
  subst hc
  refine ⟨evs, ft, cid, ?_, hnt'⟩
  have hdone : procDatas parse (⟨ft, [], cid⟩ : DecState C) [lit "[DONE]"] =
      (⟨ft, [], cid⟩, [Event.doneEv ft [] cid], true) := by
    simp [procDatas, stepData_done]
  have := procDatas_append_go parse datas [lit "[DONE]"] initDecState _ _ _ _ _ hrun hdone
  simpa using this

theorem C6_citation_resilience_witness :
    (∀ d ∈ [lit "[CITATIONS]not json"],
      d ≠ lit "[DONE]" ∧ jsStartsWith (lit "[ERROR]") d = false) ∧
    ((∀ (s : DecState Nat) (d : JStr), jsStartsWith (lit "[CITATIONS]") d = true →
        (none : Option (List Nat)) = none →
        stepData (fun _ => none) s d = (s, [], false)) ∧
      ∃ evs ft cid,
        procDatas (C := Nat) (fun _ => none) initDecState
            ([lit "[CITATIONS]not json"] ++ [lit "[DONE]"]) =
          ({ fullText := ft, citations := [], convId := cid },
            evs ++ [Event.doneEv ft [] cid], true) ∧
        (evs.all fun e => !isTerminalEv e) = true) :=
  ⟨by decide,
    C6_citation_resilience (fun _ => none) [lit "[CITATIONS]not json"]
      (by decide) (by intro d hd h; rfl)⟩

/-- C10: whatever arrived earlier in the stream, after a `[CITATIONS]`
payload that parses to the batch `b` and after which no later citation
payload parses, the citation list handed to `onDone` at `[DONE]` is
exactly `b`: each successfully parsed batch replaces the buffered one,
with no appending or merging. -/
theorem C10_last_batch_wins {C : Type} (parse : JStr → Option (List C))
    (ds1 ds2 : List JStr) (c : JStr) (b : List C)
    (h1 : ∀ d ∈ ds1, d ≠ lit "[DONE]" ∧ jsStartsWith (lit "[ERROR]") d = false)
    (h2 : ∀ d ∈ ds2, d ≠ lit "[DONE]" ∧ jsStartsWith (lit "[ERROR]") d = false)
    (hc : jsStartsWith (lit "[CITATIONS]") c = true)
    (hb : parse (jsSlice 11 c) = some b)
    (h3 : ∀ d ∈ ds2, jsStartsWith (lit "[CITATIONS]") d = true →
      parse (jsSlice 11 d) = none) :
    ∃ evs ft cid,
      procDatas parse initDecState (ds1 ++ [c] ++ ds2 ++ [lit "[DONE]"]) =
        ({ fullText := ft, citations := b, convId := cid },
          evs ++ [Event.doneEv ft b cid], true) ∧
      (evs.all fun e => !isTerminalEv e) = true := by
  obtain ⟨s1, evs1, hr1, hnt1, -⟩ := procDatas_nonterminal parse ds1 initDecState h1
  have hstep : procDatas parse s1 [c] = ({ s1 with citations := b }, [], false) := by
    simp [procDatas, stepData_citSome parse s1 hc hb]
  obtain ⟨s2, evs2, hr2, hnt2, hcit2⟩ :=
    procDatas_nonterminal parse ds2 { s1 with citations := b } h2
  obtain ⟨ft2, cs2, cid2⟩ := s2
  have hc2 : cs2 = b := by simpa using hcit2 h3
  subst hc2
  have hdone : procDatas parse (⟨ft2, cs2, cid2⟩ : DecState C) [lit "[DONE]"] =
      (⟨ft2, cs2, cid2⟩, [Event.doneEv ft2 cs2 cid2], true) := by
    simp [procDatas, stepData_done]
  refine ⟨evs1 ++ evs2, ft2, cid2, ?_, ?_⟩
  · have e1 := procDatas_append_go parse ds1 [c] _ _ _ _ _ _ hr1 hstep
    have e2 := procDatas_append_go parse (ds1 ++ [c]) ds2 _ _ _ _ _ _ e1 hr2
    have e3 := procDatas_append_go parse ((ds1 ++ [c]) ++ ds2) [lit "[DONE]"]
      _ _ _ _ _ _ e2 hdone
    simpa [List.append_assoc] using e3
  · simp [List.all_append, hnt1, hnt2]

theorem C10_last_batch_wins_witness :
    (∀ d ∈ [lit "hello", lit "[CITATIONS][1]"],
      d ≠ lit "[DONE]" ∧ jsStartsWith (lit "[ERROR]") d = false) ∧
    (∀ d ∈ [lit "world"],
      d ≠ lit "[DONE]" ∧ jsStartsWith (lit "[ERROR]") d = false) ∧
    jsStartsWith (lit "[CITATIONS]") (lit "[CITATIONS][2]") = true ∧
    parseW (jsSlice 11 (lit "[CITATIONS][2]")) = some [2] ∧
    (∀ d ∈ [lit "world"], jsStartsWith (lit "[CITATIONS]") d = true →
      parseW (jsSlice 11 d) = none) ∧
    ∃ evs ft cid,
      procDatas parseW initDecState
          ([lit "hello", lit "[CITATIONS][1]"] ++ [lit "[CITATIONS][2]"] ++
            [lit "world"] ++ [lit "[DONE]"]) =
        ({ fullText := ft, citations := [2], convId := cid },
          evs ++ [Event.doneEv ft [2] cid], true) ∧
      (evs.all fun e => !isTerminalEv e) = true :=
  ⟨by decide, by decide, by decide, by decide, by decide,
    C10_last_batch_wins parseW [lit "hello", lit "[CITATIONS][1]"] [lit "world"]
      (lit "[CITATIONS][2]") [2] (by decide) (by decide) (by decide) (by decide)
      (by decide)⟩

/-- If no terminal sentinel occurs in the chunks and the stream then ends
with a transport failure, the catch delivers the single trailing
`onError` carrying that failure, preceded only by `onChunk`s. -/
theorem procChunks_failed_noTerm {C : Type} (parse : JStr → Option (List C)) :
    ∀ (chunks : List JStr) (s : DecState C) (m : JStr),
      chunksTerminate parse s chunks = false →
      ∃ evs, procChunks parse s chunks (EndKind.failed m) = evs ++ [Event.errorEv m] ∧
        (evs.all fun e => !isTerminalEv e) = true
  | [], s, m, h => ⟨[], rfl, rfl⟩
  | c :: rest, s, m, h => by
    rcases hl : procLines parse s (jsSplitNl c) with ⟨s1, evs1, b⟩
    simp only [chunksTerminate, hl] at h
    cases b with
    | true => simp at h
    | false =>
      simp only [] at h
      have hnt := (procLines_events parse (jsSplitNl c) s).2 _ _ hl
      obtain ⟨evs, hre, hnt'⟩ := procChunks_failed_noTerm parse rest s1 m h
      refine ⟨evs1 ++ evs, ?_, ?_⟩
      · rw [procChunks, hl]
        simp only []
        rw [hre, List.append_assoc]
      · simp [List.all_append, hnt, hnt']

/-- C9: after the access token is obtained no failure escapes as an
exception to the caller: a non-OK HTTP response is surfaced as exactly
the single `onError` carrying `errorData.detail || 'API error: <status>'`
(thrown inside the try block and converted by the catch), and a read that
raises a transport failure before any terminal sentinel is surfaced as
exactly one trailing `onError` carrying the failure, preceded only by
`onChunk` invocations. -/
theorem C9_total_error_channel {C : Type} (parse : JStr → Option (List C))
    (detail : Option JStr) (statusText : JStr) (chunks : List JStr) (m : JStr)
    (h : chunksTerminate parse initDecState chunks = false) :
    sendChatMessageStream (C := C) parse (FetchOutcome.httpError detail statusText) =
      [Event.errorEv (jsOrDefault detail (lit "API error: " ++ statusText))] ∧
    ∃ evs, sendChatMessageStream parse (FetchOutcome.ok chunks (EndKind.failed m)) =
        evs ++ [Event.errorEv m] ∧
      (evs.all fun e => !isTerminalEv e) = true :=
  ⟨rfl, procChunks_failed_noTerm parse chunks initDecState m h⟩

theorem C9_total_error_channel_witness :
    chunksTerminate (C := Nat) (fun _ => none) initDecState
      [lit "data: partial answer\n"] = false ∧
    (sendChatMessageStream (C := Nat) (fun _ => none)
        (FetchOutcome.httpError none (lit "500")) =
      [Event.errorEv (jsOrDefault none (lit "API error: " ++ lit "500"))] ∧
    ∃ evs, sendChatMessageStream (C := Nat) (fun _ => none)
        (FetchOutcome.ok [lit "data: partial answer\n"]
          (EndKind.failed (lit "network error"))) =
        evs ++ [Event.errorEv (lit "network error")] ∧
      (evs.all fun e => !isTerminalEv e) = true) :=
  ⟨by decide,
    C9_total_error_channel (fun _ => none) none (lit "500")
      [lit "data: partial answer\n"] (lit "network error") (by decide)⟩

/-- All three callback updates preserve a message's id. -/
theorem evUpd_id {C : Type} (e : Event C) (m : Msg C) : (evUpd e m).id = m.id := by
  cases e <;> rfl

/-- Updating by id commutes with looking up by id. -/
theorem find_updMsgs {C : Type} (sid : Nat) (f : Msg C → Msg C)
    (hf : ∀ m, (f m).id = m.id) :
    ∀ ms : List (Msg C),
      (updMsgs sid f ms).find? (fun m => decide (m.id = some sid)) =
        Option.map f (ms.find? fun m => decide (m.id = some sid))
  | [] => rfl
  | m :: ms => by
    have hu : updMsgs sid f (m :: ms) =
        (if m.id = some sid then f m else m) :: updMsgs sid f ms := rfl
    rw [hu]
    by_cases h : m.id = some sid
    · rw [if_pos h, List.find?_cons_of_pos _ (by simp [hf, h]),
        List.find?_cons_of_pos _ (by simp [h])]
      rfl
    · rw [if_neg h, List.find?_cons_of_neg _ (by simp [h]),
        List.find?_cons_of_neg _ (by simp [h])]
      exact find_updMsgs sid f hf ms

/-- The messages array after one callback is the `prev.map` update of the
previous array with that callback's per-message update. -/
theorem applyEvent_messages {C : Type} (sid : Nat) (cc : Option JStr)
    (ps : PageState C) (e : Event C) :
    (applyEvent sid cc ps e).messages = updMsgs sid (evUpd e) ps.messages := by
  cases e with
  | chunkEv d ft => rfl
  | errorEv m => rfl
  | doneEv ft cs cid =>
    show (onDoneCb sid cc ft cs cid ps).messages = _
    simp only [onDoneCb]
    split <;> rfl

theorem findMsg_applyEvent {C : Type} (sid : Nat) (cc : Option JStr)
    (ps : PageState C) (e : Event C) :
    findMsg sid (applyEvent sid cc ps e) = Option.map (evUpd e) (findMsg sid ps) := by
  rw [findMsg, findMsg, applyEvent_messages]
  exact find_updMsgs sid (evUpd e) (evUpd_id e) ps.messages

/-- Looking up the stream's message after a whole run folds the per-event
updates over the message found before the run. -/
theorem findMsg_runPage {C : Type} (sid : Nat) (cc : Option JStr) :
    ∀ (evs : List (Event C)) (ps : PageState C),
      findMsg sid (runPage sid cc ps evs) =
        Option.map (fun m => evs.foldl (fun acc e => evUpd e acc) m) (findMsg sid ps)
  | [], ps => by
    cases h : findMsg sid ps <;> simp [runPage, h]
  | e :: evs, ps => by
    have h1 : runPage sid cc ps (e :: evs) = runPage sid cc (applyEvent sid cc ps e) evs := rfl
    rw [h1, findMsg_runPage sid cc evs (applyEvent sid cc ps e), findMsg_applyEvent]
    cases h : findMsg sid ps <;> simp [h]

/-- Folding only `onChunk` updates over a message rewrites its content and
nothing else. -/
theorem foldl_chunk_content {C : Type} :
    ∀ (evs : List (Event C)) (m : Msg C),
      (evs.all fun e => !isTerminalEv e) = true →
      ∃ c, evs.foldl (fun acc e => evUpd e acc) m = { m with content := c }
  | [], m, _ => ⟨m.content, rfl⟩
  | e :: evs, m, h => by
    simp only [List.all_cons, Bool.and_eq_true] at h
    cases e with
    | chunkEv d ft =>
      obtain ⟨c, hc⟩ := foldl_chunk_content evs { m with content := ft } h.2
      exact ⟨c, hc⟩
    | doneEv ft cs cid => simp [isTerminalEv] at h
    | errorEv x => simp [isTerminalEv] at h

/-- A run of pure text deltas accumulates the decoded payloads in order
and emits only `onChunk` events. -/
theorem procDatas_deltas {C : Type} (parse : JStr → Option (List C)) :
    ∀ (datas : List JStr) (s : DecState C),
      (∀ d ∈ datas, isDeltaData d = true) →
      ∃ evs, procDatas parse s datas =
        ({ s with fullText := s.fullText ++ (datas.map decodeEscapes).flatten },
          evs, false) ∧
        (evs.all fun e => !isTerminalEv e) = true
  | [], s, _ => ⟨[], by simp [procDatas], rfl⟩
  | d :: datas, s, h => by
    have hd := h d (List.mem_cons_self d datas)
    obtain ⟨evs, hrun, hnt⟩ := procDatas_deltas parse datas
      { s with fullText := s.fullText ++ decodeEscapes d }
      (fun x hx => h x (List.mem_cons_of_mem d hx))
    refine ⟨Event.chunkEv (decodeEscapes d) (s.fullText ++ decodeEscapes d) :: evs, ?_, ?_⟩
    · simp only [procDatas, stepData_delta parse s hd]
      rw [hrun]
      simp [List.append_assoc]
    · simp only [List.all_cons, Bool.and_eq_true]
      exact ⟨rfl, hnt⟩

/-- With no id collision among the existing messages, looking up the
stream id right after `handleSendStart` finds the fresh placeholder. -/
theorem findMsg_handleSendStart {C : Type} (sid : Nat) (q : JStr) (ps : PageState C)
    (hfresh : ∀ m ∈ ps.messages, m.id ≠ some sid) :
    findMsg sid (handleSendStart sid q ps) = some (placeholderMsg sid) := by
  have h1 : ps.messages.find? (fun m => decide (m.id = some sid)) = none := by
    rw [List.find?_eq_none]
    intro x hx
    simp [hfresh x hx]
  show ((ps.messages ++ [userMsg q]) ++ [placeholderMsg sid]).find?
      (fun m => decide (m.id = some sid)) = some (placeholderMsg sid)
  rw [List.find?_append, List.find?_append, h1]
  simp [userMsg, placeholderMsg]

/-- A non-terminal payload changes `fullText` by appending its decoded
text exactly when it classifies as a delta; sentinel payloads
(`[CITATIONS]`, `[CONV_ID]`) leave `fullText` alone. -/
theorem stepData_fullText {C : Type} (parse : JStr → Option (List C))
    (s : DecState C) {d : JStr}
    (h1 : d ≠ lit "[DONE]") (h2 : jsStartsWith (lit "[ERROR]") d = false) :
    ∃ s' evs, stepData parse s d = (s', evs, false) ∧
      (evs.all fun e => !isTerminalEv e) = true ∧
      s'.fullText =
        s.fullText ++ (if isDeltaData d then decodeEscapes d else []) := by
  by_cases h3 : jsStartsWith (lit "[CITATIONS]") d = true
  · have hnd : isDeltaData d = false := by simp [isDeltaData, h3]
    rcases hp : parse (jsSlice 11 d) with _ | cs
    · exact ⟨s, [], stepData_citNone parse s h3 hp, rfl, by simp [hnd]⟩
    · exact ⟨{ s with citations := cs }, [], stepData_citSome parse s h3 hp, rfl,
        by simp [hnd]⟩
  · by_cases h4 : jsStartsWith (lit "[CONV_ID]") d = true
    · have hnd : isDeltaData d = false := by simp [isDeltaData, h4]
      exact ⟨_, [], stepData_conv parse s h4, rfl, by simp [hnd]⟩
    · have hd : isDeltaData d = true := by
        simp [isDeltaData, h1, h2, h3, h4]
      exact ⟨_, _, stepData_delta parse s hd, rfl, by simp [hd]⟩

/-- Over a run of non-terminal payloads, `fullText` accumulates exactly
the decoded delta-classified payloads, in arrival order; only `onChunk`
events are emitted. -/
theorem procDatas_fullText {C : Type} (parse : JStr → Option (List C)) :
    ∀ (datas : List JStr) (s : DecState C),
      (∀ d ∈ datas, d ≠ lit "[DONE]" ∧ jsStartsWith (lit "[ERROR]") d = false) →
      ∃ s' evs, procDatas parse s datas = (s', evs, false) ∧
        (evs.all fun e => !isTerminalEv e) = true ∧
        s'.fullText =
          s.fullText ++ ((datas.filter isDeltaData).map decodeEscapes).flatten
  | [], s, _ => ⟨s, [], rfl, rfl, by simp⟩
  | d :: datas, s, h => by
    obtain ⟨h1, h2⟩ := h d (List.mem_cons_self d datas)
    obtain ⟨s1, evs1, hstep, hnt1, hft1⟩ := stepData_fullText parse s h1 h2
    obtain ⟨s2, evs2, hrun, hnt2, hft2⟩ :=
      procDatas_fullText parse datas s1 (fun x hx => h x (List.mem_cons_of_mem d hx))
    refine ⟨s2, evs1 ++ evs2, ?_, ?_, ?_⟩
    · simp only [procDatas, hstep]
      rw [hrun]
    · simp [List.all_append, hnt1, hnt2]
    · rw [hft2, hft1]
      by_cases hd : isDeltaData d = true
      · simp [List.filter_cons, hd, List.append_assoc]
      · simp only [Bool.not_eq_true] at hd
        simp [List.filter_cons, hd]

/-- C4: for every well-formed frame sequence (no terminal frame before
the end, but with `[CITATIONS]` and `[CONV_ID]` frames freely
interleaved) ending in a Completion (`[DONE]`) payload, fed through
`handleSend` with a fresh placeholder id, the assistant message ends
with content equal to the concatenation, in arrival order, of all
TextDelta payloads with the two-character `\n` escape decoded to a
literal line break in each payload; it is sealed
(`isStreaming = false`, `isError = false`) with the buffered citation
list attached. -/
theorem C4_completeness {C : Type} (parse : JStr → Option (List C)) (sid : Nat)
    (q : JStr) (ps : PageState C) (datas : List JStr)
    (hnt : ∀ d ∈ datas, d ≠ lit "[DONE]" ∧ jsStartsWith (lit "[ERROR]") d = false)
    (hfresh : ∀ m ∈ ps.messages, m.id ≠ some sid) :
    ∃ cs, findMsg sid (runPage sid ps.conversationId (handleSendStart sid q ps)
        ((procDatas parse initDecState (datas ++ [lit "[DONE]"])).2.1)) =
      some { id := some sid, role := Role.assistant,
             content := ((datas.filter isDeltaData).map decodeEscapes).flatten,
             isStreaming := false, isError := false, citations := cs } := by
  obtain ⟨s', evs, hrun, hevnt, hfull⟩ := procDatas_fullText parse datas initDecState hnt
  have hdone : procDatas parse s' [lit "[DONE]"] =
      (s', [Event.doneEv s'.fullText s'.citations s'.convId], true) := by
    simp [procDatas, stepData_done]
  have hall := procDatas_append_go parse datas [lit "[DONE]"] initDecState
    _ _ _ _ _ hrun hdone
  have hev : (procDatas parse initDecState (datas ++ [lit "[DONE]"])).2.1 =
      evs ++ [Event.doneEv s'.fullText s'.citations s'.convId] := by
    rw [hall]
  refine ⟨s'.citations, ?_⟩
  rw [hev, findMsg_runPage, findMsg_handleSendStart sid q ps hfresh]
  obtain ⟨c, hc⟩ := foldl_chunk_content evs (placeholderMsg sid) hevnt
  refine congrArg some ?_
  show List.foldl (fun acc e => evUpd e acc) (placeholderMsg sid)
      (evs ++ [Event.doneEv s'.fullText s'.citations s'.convId]) = _
  rw [List.foldl_append, hc]
  have hfull' : s'.fullText = ((datas.filter isDeltaData).map decodeEscapes).flatten := by
    simpa [initDecState] using hfull
  show evUpd (Event.doneEv s'.fullText s'.citations s'.convId)
      { placeholderMsg sid with content := c } = _
  simp [evUpd, placeholderMsg, hfull']

theorem C4_completeness_witness :
    (∀ d ∈ [lit "Hello ", lit "[CONV_ID]abc", lit "wor\\nld", lit "[CITATIONS]bad"],
      d ≠ lit "[DONE]" ∧ jsStartsWith (lit "[ERROR]") d = false) ∧
    (∀ m ∈ (psInit (C := Nat)).messages, m.id ≠ some 1) ∧
    ∃ cs, findMsg 1 (runPage 1 (psInit (C := Nat)).conversationId
        (handleSendStart 1 (lit "hi") (psInit (C := Nat)))
        ((procDatas (C := Nat) (fun _ => none) initDecState
          ([lit "Hello ", lit "[CONV_ID]abc", lit "wor\\nld", lit "[CITATIONS]bad"] ++
            [lit "[DONE]"])).2.1)) =
      some { id := some 1, role := Role.assistant,
             content := (([lit "Hello ", lit "[CONV_ID]abc", lit "wor\\nld",
               lit "[CITATIONS]bad"].filter isDeltaData).map decodeEscapes).flatten,
             isStreaming := false, isError := false, citations := cs } :=
  ⟨by decide, by decide,
    C4_completeness (fun _ => none) 1 (lit "hi") psInit
      [lit "Hello ", lit "[CONV_ID]abc", lit "wor\\nld", lit "[CITATIONS]bad"]
      (by decide) (by decide)⟩

/-- C2 counterexample: for the frame sequence
`[TextDelta("Hello "), TextDelta("wor"), Error("boom")]` the resulting
assistant message does end with `isError = true` and
`isStreaming = false`, but its content is the fixed apology template —
it does not begin with the already-streamed partial text `Hello wor`,
which is discarded rather than preserved with an appended explanation. -/
theorem C2_error_replaces_text_counterexample :
    findMsg 1 (runPage 1 none (handleSendStart 1 (lit "hi") (psInit (C := Nat)))
        ((procDatas (C := Nat) (fun _ => none) initDecState
          [lit "Hello ", lit "wor", lit "[ERROR] boom"]).2.1)) =
      some { id := some 1, role := Role.assistant,
             content := lit "Sorry, I encountered an error: boom. Please try again.",
             isStreaming := false, isError := true, citations := [] } ∧
    jsStartsWith (lit "Hello wor")
      (lit "Sorry, I encountered an error: boom. Please try again.") = false :=
  ⟨by decide, by decide⟩

/-- C2 (amended): for every frame sequence of text deltas followed by an
`[ERROR]`-classified payload, the assistant message ends with
`isError = true` and `isStreaming = false`, but its content is replaced
wholesale by `Sorry, I encountered an error: <message>. Please try
again.` — the already-streamed partial text is discarded from the
message, not preserved with an appended explanation. -/
theorem C2_error_replaces_text {C : Type} (parse : JStr → Option (List C))
    (sid : Nat) (q : JStr) (ps : PageState C) (datas : List JStr) (e : JStr)
    (hdelta : ∀ d ∈ datas, isDeltaData d = true)
    (herr : jsStartsWith (lit "[ERROR]") e = true)
    (hfresh : ∀ m ∈ ps.messages, m.id ≠ some sid) :
    findMsg sid (runPage sid ps.conversationId (handleSendStart sid q ps)
        ((procDatas parse initDecState (datas ++ [e])).2.1)) =
      some { id := some sid, role := Role.assistant,
             content := lit "Sorry, I encountered an error: " ++ jsSlice 8 e ++
               lit ". Please try again.",
             isStreaming := false, isError := true, citations := [] } := by
  obtain ⟨evs, hrun, hnt⟩ := procDatas_deltas parse datas initDecState hdelta
  have herrstep : procDatas parse
      (⟨(datas.map decodeEscapes).flatten, [], none⟩ : DecState C) [e] =
      (⟨(datas.map decodeEscapes).flatten, [], none⟩,
        [Event.errorEv (jsSlice 8 e)], true) := by
    simp [procDatas, stepData_err parse _ herr]
  have hall := procDatas_append_go parse datas [e] initDecState
    _ _ _ _ _ hrun herrstep
  have hev : (procDatas parse initDecState (datas ++ [e])).2.1 =
      evs ++ [Event.errorEv (jsSlice 8 e)] := by
    rw [hall]
  rw [hev, findMsg_runPage, findMsg_handleSendStart sid q ps hfresh]
  obtain ⟨c, hc⟩ := foldl_chunk_content evs (placeholderMsg sid) hnt
  refine congrArg some ?_
  show List.foldl (fun acc e => evUpd e acc) (placeholderMsg sid)
      (evs ++ [Event.errorEv (jsSlice 8 e)]) = _
  rw [List.foldl_append, hc]
  rfl

theorem C2_error_replaces_text_witness :
    (∀ d ∈ [lit "Hello ", lit "wor"], isDeltaData d = true) ∧
    jsStartsWith (lit "[ERROR]") (lit "[ERROR] boom") = true ∧
    (∀ m ∈ (psInit (C := Nat)).messages, m.id ≠ some 1) ∧
    findMsg 1 (runPage 1 (psInit (C := Nat)).conversationId
        (handleSendStart 1 (lit "hi") (psInit (C := Nat)))
        ((procDatas (C := Nat) (fun _ => none) initDecState
          ([lit "Hello ", lit "wor"] ++ [lit "[ERROR] boom"])).2.1)) =
      some { id := some 1, role := Role.assistant,
             content := lit "Sorry, I encountered an error: " ++
               jsSlice 8 (lit "[ERROR] boom") ++ lit ". Please try again.",
             isStreaming := false, isError := true, citations := [] } :=
  ⟨by decide, by decide, by decide,
    C2_error_replaces_text (fun _ => none) 1 (lit "hi") psInit
      [lit "Hello ", lit "wor"] (lit "[ERROR] boom")
      (by decide) (by decide) (by decide)⟩

/-- C5 counterexample: with no identifier established, the stream
`[CONV_ID]A`, `[CONV_ID]B`, `[DONE]` leaves the transcript's conversation
id equal to `B`: the second, different ConversationIdentifier frame in
the same stream did have an effect — it overwrote the pending `A`. -/
theorem C5_identifier_counterexample :
    (runPage 1 none (handleSendStart 1 (lit "q") (psInit (C := Nat)))
        ((procDatas (C := Nat) (fun _ => none) initDecState
          [lit "[CONV_ID]A", lit "[CONV_ID]B", lit "[DONE]"]).2.1)).conversationId =
      some (lit "B") ∧
    (some (lit "B") : Option JStr) ≠ some (lit "A") :=
  ⟨by decide, by decide⟩

/-- C5 (amended): within one stream the decoder keeps the last
ConversationIdentifier frame — the `[CONV_ID]` branch overwrites the
pending identifier unconditionally, so a second identifier frame in the
same stream replaces the first; across streams the claim holds: once the
send captured an established (truthy) identifier, `onDone` leaves the
transcript's identifier unchanged. -/
theorem C5_identifier_last_wins {C : Type} (parse : JStr → Option (List C))
    (s : DecState C) (d : JStr) (sid : Nat) (cc : Option JStr) (ft : JStr)
    (cs : List C) (cid : Option JStr) (ps : PageState C)
    (h : jsStartsWith (lit "[CONV_ID]") d = true)
    (hcc : strTruthy cc = true) :
    stepData parse s d = ({ s with convId := some (jsSlice 9 d) }, [], false) ∧
    (onDoneCb sid cc ft cs cid ps).conversationId = ps.conversationId :=
  ⟨stepData_conv parse s h, by simp [onDoneCb, hcc]⟩

theorem C5_identifier_last_wins_witness :
    jsStartsWith (lit "[CONV_ID]") (lit "[CONV_ID]B") = true ∧
    strTruthy (some (lit "A")) = true ∧
    (stepData (C := Nat) (fun _ => none) initDecState (lit "[CONV_ID]B") =
        ({ initDecState with convId := some (jsSlice 9 (lit "[CONV_ID]B")) }, [], false) ∧
      (onDoneCb 1 (some (lit "A")) (lit "t") [] (some (lit "B"))
          (psInit (C := Nat))).conversationId = (psInit (C := Nat)).conversationId) :=
  ⟨by decide, by decide,
    C5_identifier_last_wins (fun _ => none) initDecState (lit "[CONV_ID]B") 1
      (some (lit "A")) (lit "t") [] (some (lit "B")) psInit (by decide) (by decide)⟩

/-- After any event the message list stays the single greeting, because
no message in it carries the superseded stream's placeholder id. -/
theorem runPage_welcome {C : Type} (sid : Nat) (cc : Option JStr) :
    ∀ (evs : List (Event C)) (p : PageState C),
      p.messages = [welcomeMsg] → (runPage sid cc p evs).messages = [welcomeMsg]
  | [], p, h => h
  | e :: evs, p, h => by
    apply runPage_welcome sid cc evs
    rw [applyEvent_messages, h]
    simp [updMsgs, welcomeMsg]

/-- C1 counterexample: with a stream in flight (placeholder id 7),
`handleNewChat` clears the error, yet a subsequently delivered Error
frame of the superseded stream sets the page error to `boom` — an
observable error-state change, so late frames are not fully discarded. -/
theorem C1_reset_counterexample :
    (handleNewChat (psMidStream (C := Nat))).error = none ∧
    (applyEvent 7 none (handleNewChat (psMidStream (C := Nat)))
        (Event.errorEv (lit "boom"))).error = some (lit "boom") ∧
    (some (lit "boom") : Option JStr) ≠ none :=
  ⟨by decide, by decide, by decide⟩

/-- C1 (amended): after `handleNewChat` the message list is never touched
by late frames of the superseded stream — the fresh greeting carries no
id, so the `prev.map` guard matches nothing — but the frames are not
fully discarded: a late Error frame sets the page error state to
`err.message || '...'`, and a late Done frame carrying a (truthy)
conversation id assigns it when the superseded send had captured none. -/
theorem C1_reset_cancellation {C : Type} (sid : Nat) (cc : Option JStr)
    (ps : PageState C) :
    (∀ evs : List (Event C),
      (runPage sid cc (handleNewChat ps) evs).messages = [welcomeMsg]) ∧
    (∀ m : JStr,
      (applyEvent sid cc (handleNewChat ps) (Event.errorEv m)).error =
        some (jsOrDefault (some m) errAdvice)) ∧
    (∀ (ft : JStr) (cs : List C) (ch : Char) (rest : JStr),
      (applyEvent sid none (handleNewChat ps)
        (Event.doneEv ft cs (some (ch :: rest)))).conversationId = some (ch :: rest)) :=
  ⟨fun evs => runPage_welcome sid cc evs (handleNewChat ps) rfl,
    fun _ => rfl,
    fun _ _ _ _ => rfl⟩
